import Mathlib

/-!
Verification of the DMG (Apple UDIF) handler of go-app-index.

This file is a shallow embedding of the DMG subsystem:
byte primitives and the CRC-32 pipeline from
internal/handlers/dmg/utils.go, fork pairs and checksum records,
the trailer-location / layout / fork-bound / XML-probe prefix of
Handler.Open from internal/handlers/dmg/handler.go, mish file-table
parsing (File.Parse), the master-checksum and sector-count
verification phases of Open, and the read stream (InStream) with its
chunk cache and the ADC decoder.

Byte sources are lists of byte values (each < 256); unsigned 64-bit
arithmetic is modelled on Nat with explicit wrapping where the Go
code can overflow.
-/

set_option maxRecDepth 100000

namespace Dmg

instance {ε α : Type} [DecidableEq ε] [DecidableEq α] : DecidableEq (Except ε α) := fun a b =>
  match a, b with
  | .error e, .error f =>
    if h : e = f then isTrue (by rw [h]) else isFalse (by intro hc; cases hc; exact h rfl)
  | .error _, .ok _ => isFalse (by intro hc; cases hc)
  | .ok _, .error _ => isFalse (by intro hc; cases hc)
  | .ok x, .ok y =>
    if h : x = y then isTrue (by rw [h]) else isFalse (by intro hc; cases hc; exact h rfl)

/-! ## Byte primitives (utils.go) -/

/-- Big-endian 16-bit read at an offset, `GetBe16` in utils.go.
Out-of-range bytes read as 0; every use below is on a buffer whose
length was checked first, matching the Go slices. -/
def GetBe16 (data : List Nat) (off : Nat) : Nat :=
  data.getD off 0 * 256 + data.getD (off + 1) 0

/-- Big-endian 32-bit read at an offset, `GetBe32` in utils.go. -/
def GetBe32 (data : List Nat) (off : Nat) : Nat :=
  ((data.getD off 0 * 256 + data.getD (off + 1) 0) * 256 +
    data.getD (off + 2) 0) * 256 + data.getD (off + 3) 0

/-- Big-endian 64-bit read at an offset, `GetBe64` in utils.go. -/
def GetBe64 (data : List Nat) (off : Nat) : Nat :=
  GetBe32 data off * 2 ^ 32 + GetBe32 data (off + 4)

/-- Big-endian encoding of a 32-bit value (test-vector construction helper). -/
def be32 (n : Nat) : List Nat :=
  [n / 2 ^ 24 % 256, n / 2 ^ 16 % 256, n / 2 ^ 8 % 256, n % 256]

/-- Big-endian encoding of a 64-bit value (test-vector construction helper). -/
def be64 (n : Nat) : List Nat :=
  be32 (n / 2 ^ 32) ++ be32 (n % 2 ^ 32)

/-- A run of zero bytes (test-vector construction helper). -/
def zeros (n : Nat) : List Nat :=
  List.replicate n 0

/-! ## CRC-32 (utils.go wrapping the Go hash/crc32)

`CrcUpdate` in utils.go calls `crc32.Update(crc, crc32.IEEETable, data)`.
the Go `crc32.Update` complements the register on entry and on exit:
`update(crc, p) = ~fold(~crc, p)` where `fold` is the raw reflected
table fold for the IEEE polynomial 0xEDB88320.  The standard checksum
`crc32.ChecksumIEEE(p)` is `Update(0, IEEETable, p)`. -/

/-- One bit-step of the reflected IEEE CRC-32 table generator
(polynomial 0xEDB88320). -/
def crcStep (c : Nat) : Nat :=
  if c % 2 = 1 then 0xEDB88320 ^^^ (c / 2) else c / 2

/-- One entry of the Go `crc32.IEEETable`: eight bit-steps applied to the index. -/
def crcTableEntry (b : Nat) : Nat :=
  crcStep (crcStep (crcStep (crcStep (crcStep (crcStep (crcStep (crcStep b)))))))

/-- One byte-step of the raw (uncomplemented) reflected CRC-32 fold. -/
def crcRound (c v : Nat) : Nat :=
  crcTableEntry ((c % 256) ^^^ (v % 256)) ^^^ (c / 256)

/-- The raw reflected CRC-32 table fold over a byte list. -/
def crcFold (c : Nat) (d : List Nat) : Nat :=
  d.foldl crcRound c

/-- the Go `crc32.Update(crc, crc32.IEEETable, d)`: complement in, fold, complement out.
`CrcUpdate` in utils.go is exactly this function. -/
def CrcUpdate (crc : Nat) (d : List Nat) : Nat :=
  crcFold (crc ^^^ 0xFFFFFFFF) d ^^^ 0xFFFFFFFF

/-- Go `CrcInitVal` in utils.go. -/
def CrcInitVal : Nat := 0xFFFFFFFF

/-- Go `CrcGetDigest` in utils.go: final XOR with 0xFFFFFFFF. -/
def CrcGetDigest (crc : Nat) : Nat :=
  crc ^^^ 0xFFFFFFFF

/-- The standard IEEE CRC-32 checksum of a byte sequence, as computed by
the Go `crc32.ChecksumIEEE` (initial register 0xFFFFFFFF, final XOR
0xFFFFFFFF over the reflected IEEE polynomial): `Update(0, IEEETable, d)`. -/
def crc32ChecksumIEEE (d : List Nat) : Nat :=
  CrcUpdate 0 d

/-- The handler CRC pipeline: start from `CrcInitVal`, fold the data
through `CrcUpdate`, apply `CrcGetDigest`. -/
def crcPipeline (d : List Nat) : Nat :=
  CrcGetDigest (CrcUpdate CrcInitVal d)

/-! ## Constants (constants.go) -/

def MethodZero0 : Nat := 0
def MethodCopy : Nat := 1
def MethodZero2 : Nat := 2
def MethodADC : Nat := 0x80000004
def MethodZLIB : Nat := 0x80000005
def MethodBZIP2 : Nat := 0x80000006
def MethodLZFSE : Nat := 0x80000007
def MethodXZ : Nat := 0x80000008
def MethodComment : Nat := 0x7FFFFFFE
def MethodEnd : Nat := 0xFFFFFFFF

def ChecksumTypeCRC : Nat := 2
def ChecksumSizeMax : Nat := 0x80
def SectorNumberLimit : Nat := 2 ^ (63 - 9)
def NumChunksMax : Nat := 128
def ChunkSizeMax : Nat := 2 ^ 28
def ChunksTotalSizeMax : Nat := 2 ^ 40
def XMLSizeMax : Nat := 2 ^ 31 - 256
def KolyHeaderSize : Nat := 0x200

/-- The `koly` signature, `KolySignature` in constants.go. -/
def KolySignature : List Nat :=
  [0x6B, 0x6F, 0x6C, 0x79, 0, 0, 0, 4, 0, 0, 2, 0]

/-- Modulus 2^64; Go uint64 arithmetic wraps at this modulus. -/
def U64 : Nat := 2 ^ 64

/-- Go `IsKoly` in utils.go: the first 12 bytes match the signature. -/
def IsKoly (data : List Nat) : Bool :=
  data.take KolySignature.length == KolySignature

/-! ## Fork pairs (ForkPair) -/

/-- A fork descriptor: 64-bit offset and length into the container. -/
structure ForkPair where
  Offset : Nat
  Len : Nat
deriving DecidableEq

/-- Go `ForkPair.Parse`: big-endian offset at 0, length at 8. -/
def ForkPair.Parse (data : List Nat) : ForkPair :=
  { Offset := GetBe64 data 0, Len := GetBe64 data 8 }

/-- Go `ForkPair.UpdateTop`: fails (returns `none`) when the pair exceeds
`limit`; otherwise raises `top` to the end of the pair position if larger.
The Go subtraction `limit - f.Offset` is guarded by `f.Offset > limit`,
so Nat subtraction agrees with uint64 here. -/
def ForkPair.UpdateTop (f : ForkPair) (limit top : Nat) : Option Nat :=
  if f.Offset > limit || f.Len > limit - f.Offset then
    none
  else
    let endPos := f.Offset + f.Len
    some (if top ≤ endPos then endPos else top)

/-- The bound `UpdateTop` enforces, as a proposition. -/
def pairInBounds (f : ForkPair) (limit : Nat) : Prop :=
  f.Offset ≤ limit ∧ f.Len ≤ limit - f.Offset

instance (f : ForkPair) (limit : Nat) : Decidable (pairInBounds f limit) := by
  unfold pairInBounds
  infer_instance

/-! ## Checksum records (checksum.go) -/

/-- The 136-byte checksum descriptor: type, bit count, 128 data bytes.
The Go field `Type` is spelled `Ty` here (`Type` is a Lean keyword). -/
structure Checksum where
  Ty : Nat
  NumBits : Nat
  Data : List Nat
deriving DecidableEq

/-- Go `Checksum.Parse`: type at 0, bit count at 4, 128 data bytes from 8. -/
def Checksum.Parse (data : List Nat) : Checksum :=
  { Ty := GetBe32 data 0
    NumBits := GetBe32 data 4
    Data := (data.drop 8).take ChecksumSizeMax }

/-- Go `Checksum.IsCrc32`: type 2 and exactly 32 bits. -/
def Checksum.IsCrc32 (c : Checksum) : Bool :=
  c.Ty == ChecksumTypeCRC && c.NumBits == 32

/-- Go `Checksum.GetCrc32`: the first four big-endian data bytes. -/
def Checksum.GetCrc32 (c : Checksum) : Nat :=
  GetBe32 c.Data 0

/-! ## Source reads

A byte source is a `List Nat`.  `readAt` models seeking to `pos` and
calling `io.ReadFull` for `len` bytes: it fails whenever fewer than
`len` bytes are available from `pos`. -/

/-- Seek + `io.ReadFull`: all-or-nothing read of `len` bytes at `pos`. -/
def readAt (src : List Nat) (pos len : Nat) : Option (List Nat) :=
  if pos + len ≤ src.length then some ((src.drop pos).take len) else none

/-! ## Handler.Open, trailer/layout/bounds/probe prefix (handler.go lines 49-159)

`openLayout` models Handler.Open from the start through the XML-offset
probe: locating the Koly trailer (end first, then front), parsing the
trailer fields, the front-Koly promotion check, validating the four
fork pairs against the limit, and the offset-DMG probe.  Every
`Except.error` result makes the Go Open return that error immediately,
except `panicSliceOOB`, which models a Go runtime panic
(`xmlBuf[:13]` on a shorter slice). -/

/-- Failure outcomes of the modelled Open prefix. -/
inductive OpenErr where
  | tooSmall
  | readFail
  | notKoly
  | invalidDataFork
  | invalidXmlFork
  | invalidRsrcFork
  | panicSliceOOB
deriving DecidableEq

/-- The handler state produced by the Open prefix. -/
structure LayoutState where
  frontKolyMode : Bool
  headerPos : Nat
  limit : Nat
  top : Nat
  useBlob : Bool
  startPos : Nat
  phySize : Nat
  dataForkPair : ForkPair
  rsrcPair : ForkPair
  xmlPair : ForkPair
  blobPair : ForkPair
  numSectors : Nat
  dataForkChecksum : Checksum
  masterChecksum : Checksum
deriving DecidableEq

/-- The 13-byte probe signature in handler.go: the bytes of the string
given there, spelled out. -/
def xmlProbeSignature : List Nat :=
  [0x3C, 0x3F, 0x78, 0x6D, 0x6C, 0x20, 0x76, 0x65, 0x72, 0x73, 0x69, 0x6F, 0x6E]

/-- Trailer location (handler.go lines 52-95): read the last 512 bytes,
then if they are not Koly the first 512.  Returns header position,
header bytes, and whether front-Koly mode was entered at this step. -/
def locateTrailer (src : List Nat) : Except OpenErr (Nat × List Nat × Bool) :=
  if src.length < KolyHeaderSize then
    .error .tooSmall
  else
    match readAt src (src.length - KolyHeaderSize) KolyHeaderSize with
    | none => .error .readFail
    | some headerEnd =>
      if IsKoly headerEnd then
        .ok (src.length - KolyHeaderSize, headerEnd, false)
      else
        match readAt src 0 KolyHeaderSize with
        | none => .error .readFail
        | some headerFront =>
          if IsKoly headerFront then .ok (0, headerFront, true)
          else .error .notKoly

/-- The XML-offset probe (handler.go lines 140-158), reached in end-Koly
mode when `top ≠ headerPos`.  Reads `min(xml.Len, 13)` bytes at the XML
offset; a failed read or a signature mismatch yields the corrected
`(startPos, phySize)`.  Comparing `xmlBuf[:13]` when the buffer is
shorter than 13 bytes is a Go slice-bounds panic, modelled as
`panicSliceOOB`. -/
def xmlProbe (src : List Nat) (headerPos top : Nat) (xml : ForkPair) :
    Except OpenErr (Nat × Nat) :=
  let sigLen := xmlProbeSignature.length
  let probeLen := if xml.Len > sigLen then sigLen else xml.Len
  match readAt src (0 + xml.Offset) probeLen with
  | none => .ok (headerPos - top, top + KolyHeaderSize)
  | some buf =>
    if buf.length < sigLen then .error .panicSliceOOB
    else if buf.take sigLen == xmlProbeSignature then .ok (0, headerPos + KolyHeaderSize)
    else .ok (headerPos - top, top + KolyHeaderSize)

/-- The trailer fields parsed at the canonical offsets (handler.go
lines 97-105). -/
structure TrailerFields where
  dataForkPair : ForkPair
  rsrcPair : ForkPair
  xmlPair : ForkPair
  blobPair : ForkPair
  dataForkChecksum : Checksum
  masterChecksum : Checksum
  numSectors : Nat
deriving DecidableEq

/-- Parse the trailer fields from the 512-byte header: data fork at
0x18, rsrc at 0x28, data checksum at 0x50, xml at 0xD8, blob at 0x128,
master checksum at 0x160, sector count at 0x1EC. -/
def parseTrailerFields (header : List Nat) : TrailerFields :=
  { dataForkPair := ForkPair.Parse (header.drop 0x18)
    rsrcPair := ForkPair.Parse (header.drop 0x28)
    dataForkChecksum := Checksum.Parse (header.drop 0x50)
    xmlPair := ForkPair.Parse (header.drop 0xD8)
    blobPair := ForkPair.Parse (header.drop 0x128)
    masterChecksum := Checksum.Parse (header.drop 0x160)
    numSectors := GetBe64 header 0x1EC }

/-- The tail of the Open prefix once the bound checks are done
(handler.go lines 134-159): record the state; in front-Koly mode the
physical size is `top`; otherwise run the offset-DMG probe when the
computed top misses the trailer position. -/
def finishLayout (src : List Nat) (headerPos : Nat) (tf : TrailerFields)
    (frontKolyMode : Bool) (limit top : Nat) (useBlob : Bool) :
    Except OpenErr LayoutState :=
  let base : LayoutState :=
    { frontKolyMode := frontKolyMode, headerPos := headerPos
      limit := limit, top := top, useBlob := useBlob
      startPos := 0, phySize := 0
      dataForkPair := tf.dataForkPair, rsrcPair := tf.rsrcPair
      xmlPair := tf.xmlPair, blobPair := tf.blobPair
      numSectors := tf.numSectors
      dataForkChecksum := tf.dataForkChecksum
      masterChecksum := tf.masterChecksum }
  if frontKolyMode then
    .ok { base with phySize := top }
  else if top ≠ headerPos then
    match xmlProbe src headerPos top tf.xmlPair with
    | .error e => .error e
    | .ok (startPos, phySize) =>
      .ok { base with startPos := startPos, phySize := phySize }
  else
    .ok { base with phySize := headerPos + KolyHeaderSize }

/-- Handler.Open after trailer location and field parsing (handler.go
lines 107-159): the front-Koly promotion check, fork-pair bound
validation against the limit, then `finishLayout`.  A failed blob
bound check only clears `useBlob` and keeps the previous top. -/
def openWithFields (src : List Nat) (headerPos : Nat) (tf : TrailerFields)
    (frontKoly0 : Bool) : Except OpenErr LayoutState :=
    let frontKolyMode :=
      frontKoly0 ||
        (tf.dataForkPair.Offset == KolyHeaderSize &&
          decide (KolyHeaderSize + headerPos < src.length))
    let limit := if frontKolyMode then src.length else headerPos
    match tf.dataForkPair.UpdateTop limit 0 with
    | none => .error .invalidDataFork
    | some top1 =>
      match tf.xmlPair.UpdateTop limit top1 with
      | none => .error .invalidXmlFork
      | some top2 =>
        match tf.rsrcPair.UpdateTop limit top2 with
        | none => .error .invalidRsrcFork
        | some top3 =>
          match tf.blobPair.UpdateTop limit top3 with
          | none => finishLayout src headerPos tf frontKolyMode limit top3 false
          | some top4 => finishLayout src headerPos tf frontKolyMode limit top4 true

/-- Handler.Open after trailer location: parse the trailer fields,
then the layout/bounds/probe steps. -/
def openWithHeader (src : List Nat) (headerPos : Nat) (header : List Nat)
    (frontKoly0 : Bool) : Except OpenErr LayoutState :=
  openWithFields src headerPos (parseTrailerFields header) frontKoly0

/-- Handler.Open from the start through the XML probe (handler.go lines
49-159): trailer location, then `openWithHeader`. -/
def openLayout (src : List Nat) : Except OpenErr LayoutState :=
  match locateTrailer src with
  | .error e => .error e
  | .ok (headerPos, header, frontKoly0) => openWithHeader src headerPos header frontKoly0

/-! ### Concrete sources exercising the Open prefix -/

/-- A default layout state, used only to extract `.ok` payloads. -/
def dummyLayout : LayoutState :=
  { frontKolyMode := false, headerPos := 0, limit := 0, top := 0
    useBlob := false, startPos := 0, phySize := 0
    dataForkPair := ⟨0, 0⟩, rsrcPair := ⟨0, 0⟩
    xmlPair := ⟨0, 0⟩, blobPair := ⟨0, 0⟩, numSectors := 0
    dataForkChecksum := ⟨0, 0, []⟩, masterChecksum := ⟨0, 0, []⟩ }

/-- A trailer whose data fork is (offset 512, length 0), all other
fields zero. -/
def trailerC2 : List Nat :=
  KolySignature ++ zeros 12 ++ be64 512 ++ be64 0 ++ zeros 472

/-- A 1024-byte source: 512 zero bytes, then `trailerC2` at the end.  The
trailer is found at the end, its data fork offset is 512, and 512 is
strictly below the container size 1024. -/
def srcC2 : List Nat :=
  zeros 512 ++ trailerC2

/-- The layout state Open computes on `srcC2`. -/
def stateC2 : LayoutState :=
  (openLayout srcC2).toOption.getD dummyLayout

/-- A 512-byte source that is just a trailer whose data fork is
(offset 0, length 1): the fork end 1 exceeds the end-Koly limit 0. -/
def srcC3 : List Nat :=
  KolySignature ++ zeros 12 ++ be64 0 ++ be64 1 ++ zeros 472

/-- A trailer with zero data fork and an XML fork (offset 0, length 13). -/
def trailerC6 : List Nat :=
  KolySignature ++ zeros 12 ++ be64 0 ++ be64 0 ++ zeros 176 ++
    be64 0 ++ be64 13 ++ zeros 280

/-- A 1024-byte source whose first four bytes are `<?xm` followed by
junk, with `trailerC6` at the end: end-Koly, top = 13 ≠ 512. -/
def srcC6 : List Nat :=
  ([0x3C, 0x3F, 0x78, 0x6D] ++ List.replicate 9 0x51) ++ zeros 499 ++ trailerC6

/-- The layout state Open computes on `srcC6`. -/
def stateC6 : LayoutState :=
  (openLayout srcC6).toOption.getD dummyLayout

/-- A trailer with zero data fork and an XML fork (offset 0, length 4). -/
def trailerC10 : List Nat :=
  KolySignature ++ zeros 12 ++ be64 0 ++ be64 0 ++ zeros 176 ++
    be64 0 ++ be64 4 ++ zeros 280

/-- A 1024-byte source with `trailerC10` at the end: end-Koly, top = 4 ≠ 512,
XML fork length 4 < 13, and the 4-byte probe read succeeds. -/
def srcC10 : List Nat :=
  zeros 512 ++ trailerC10

/-- Whether the probe at the declared XML offset succeeds and returns
the 13-byte signature; the buffer read is min(xml.Len, 13) bytes and a
failed read counts as a mismatch. -/
def probeMatches (src : List Nat) (xml : ForkPair) : Bool :=
  ((readAt src xml.Offset
        (if xml.Len > xmlProbeSignature.length then xmlProbeSignature.length else xml.Len)).map
      (fun buf => buf.take xmlProbeSignature.length == xmlProbeSignature)).getD
    false

/-! ## Blocks (part_003) -/

/-- A block descriptor.  The Go field `Type` is spelled `Ty` here
(`Type` is a Lean keyword). -/
structure Block where
  Ty : Nat
  UnpPos : Nat
  PackPos : Nat
  PackSize : Nat
deriving DecidableEq

/-- The all-zero block, standing in for the Go zero value when indexing. -/
def defaultBlock : Block := ⟨0, 0, 0, 0⟩

/-- Go `Block.NeedCrc`: every method except Zero2. -/
def Block.NeedCrc (b : Block) : Bool :=
  b.Ty != MethodZero2

/-- Go `Block.IsZeroMethod`: `Type &^ 2 == 0` on uint32, i.e. clear bit 1
and test for zero (true exactly for methods 0 and 2). -/
def Block.IsZeroMethod (b : Block) : Bool :=
  b.Ty &&& 0xFFFFFFFD == 0

/-- Go `Block.IsClusteredMethod`: everything except the zero methods. -/
def Block.IsClusteredMethod (b : Block) : Bool :=
  !b.IsZeroMethod

/-- Go `Block.NeedAllocateBuffer`: not a zero method and not Copy. -/
def Block.NeedAllocateBuffer (b : Block) : Bool :=
  !b.IsZeroMethod && b.Ty != MethodCopy

/-! ## Files and mish parsing (part_005) -/

/-- A logical stream (one blkx entry).  The Go field `Descriptor` is an
int32; it is carried along unused here. -/
structure File where
  Size : Nat
  Blocks : List Block
  PackSize : Nat
  StartPackPos : Nat
  BlockSizeMAX : Nat
  StartUnpackSector : Nat
  NumUnpackSectors : Nat
  Descriptor : Int
  IsCorrect : Bool
  FullFileChecksum : Bool
  Name : String
  Checksum : Checksum
deriving DecidableEq

/-- Go `NewFile`: the default-initialised file. -/
def NewFile : File :=
  { Size := 0, Blocks := [], PackSize := 0, StartPackPos := 0
    BlockSizeMAX := 0, StartUnpackSector := 0, NumUnpackSectors := 0
    Descriptor := 0, IsCorrect := false, FullFileChecksum := false
    Name := "", Checksum := ⟨0, 0, []⟩ }

/-- Go `File.GetUnpackSizeOfBlock`: virtual-position delta to the next
block, or the declared size minus the block position for the last
block.  Callers only use in-range indices of non-empty block lists. -/
def File.GetUnpackSizeOfBlock (f : File) (blockIndex : Nat) : Nat :=
  if blockIndex = f.Blocks.length - 1 then
    f.Size - (f.Blocks.getD blockIndex defaultBlock).UnpPos
  else
    (f.Blocks.getD (blockIndex + 1) defaultBlock).UnpPos -
      (f.Blocks.getD blockIndex defaultBlock).UnpPos

/-- One step of the mish record loop in `File.Parse`.  The outcome of a
step: abort the whole parse silently (the Go mid-loop `return nil`, which
skips the final `IsCorrect` check), stop at an End record (the Go
`break`, which reaches the final check), or continue. -/
inductive ParseStep where
  | abort (f : File)
  | stop (f : File)
  | continue (f : File)

/-- One 40-byte mish block record (at offset `p` in `data`) applied to
the running file, following part_005 lines 82-146. -/
def parseRecord (data : List Nat) (p : Nat) (f : File) : ParseStep :=
  let ty := GetBe32 data p
  let sectorNum := GetBe64 data (p + 0x08)
  if sectorNum ≥ SectorNumberLimit then .abort f
  else
    let unpPos := sectorNum * 512
    let unpSectors := GetBe64 data (p + 0x10)
    if unpSectors ≥ SectorNumberLimit then .abort f
    else
      let unpSize := unpSectors * 512
      let newSize := unpPos + unpSize
      if newSize ≥ 2 ^ 63 then .abort f
      else
        let packPos := GetBe64 data (p + 0x18)
        let packSize := GetBe64 data (p + 0x20)
        if unpPos ≠ f.Size then .abort f
        else if ty = MethodComment then .continue f
        else if ty = MethodEnd then .stop f
        else if unpSize ≠ 0 then
          if packPos ≥ 2 ^ 63 || packSize ≥ 2 ^ 63 - packPos then .abort f
          else
            let b : Block := ⟨ty, unpPos, packPos, packSize⟩
            let f :=
              if b.IsClusteredMethod && decide (f.BlockSizeMAX < unpSize) then
                { f with BlockSizeMAX := unpSize }
              else f
            let f := { f with PackSize := f.PackSize + packSize }
            let f := if !b.NeedCrc then { f with FullFileChecksum := false } else f
            .continue { f with Blocks := f.Blocks ++ [b], Size := newSize }
        else .continue f

/-- The mish record loop: `numBlocks` iterations of `parseRecord`,
stepping `p` by the 40-byte record size.  Returns the file and whether
the loop completed (so that the final `IsCorrect` check applies). -/
def parseLoop (data : List Nat) : Nat → Nat → File → File × Bool
  | 0, _, f => (f, true)
  | n + 1, p, f =>
    match parseRecord data p f with
    | .abort f => (f, false)
    | .stop f => (f, true)
    | .continue f => parseLoop data n (p + 40) f

/-- Go `File.Parse` (part_005): header checks, top-level fields, the block
record loop, and the final `IsCorrect` check.  `none` models the Go
error returns for the four header failures; all mid-loop problems
return the incomplete file, exactly as the Go `return nil`
statements do. -/
def File.Parse (data : List Nat) : Option File :=
  if data.length < 0xCC then none
  else if GetBe32 data 0 ≠ 0x6D697368 then none
  else if GetBe32 data 4 ≠ 1 then none
  else
    let numBlocks := GetBe32 data 0xC8
    if numBlocks * 40 + 0xCC ≠ data.length then none
    else
      let f0 : File :=
        { NewFile with
            StartUnpackSector := GetBe64 data 8
            NumUnpackSectors := GetBe64 data 0x10
            StartPackPos := GetBe64 data 0x18
            Descriptor :=
              (if GetBe32 data 0x24 < 2 ^ 31 then (GetBe32 data 0x24 : Int)
               else (GetBe32 data 0x24 : Int) - 2 ^ 32)
            Checksum := Checksum.Parse (data.drop 0x40)
            FullFileChecksum := true }
      let (f, completed) := parseLoop data numBlocks 0xCC f0
      if completed && (f.Size / 512 == f.NumUnpackSectors) then
        some { f with IsCorrect := true }
      else
        some f

/-! ## Master-checksum verification (handler.go lines 399-417) -/

/-- The master-CRC fold loop over the file list.  An entry whose bit
count is not a multiple of 8, or whose byte length exceeds 128, breaks
the loop (skipping it and every later file). -/
def masterLoop : List File → Nat → Nat
  | [], crc => crc
  | f :: rest, crc =>
    let cs := f.Checksum
    if cs.NumBits &&& 0x7 ≠ 0 then crc
    else if cs.NumBits >>> 3 > ChecksumSizeMax then crc
    else masterLoop rest (CrcUpdate crc (cs.Data.take (cs.NumBits >>> 3)))

/-- The master-checksum phase: when the master record is CRC-32, the
`masterCrcError` flag is the digest/stored-value mismatch; otherwise
the flag keeps its initial `false`. -/
def masterCheckPhase (files : List File) (master : Checksum) : Bool :=
  if master.IsCrc32 then
    decide (CrcGetDigest (masterLoop files CrcInitVal) ≠ master.GetCrc32)
  else false

/-- Modelled from the spec (claim C5 reading of invariant 6): each
file contributes its checksum data prefix of length `num_bits/8`
**capped at 128**; only an entry whose bit count is not a multiple of 8
terminates the reduction early. -/
def specMasterBytes : List File → List Nat
  | [] => []
  | f :: rest =>
    if f.Checksum.NumBits % 8 ≠ 0 then []
    else
      f.Checksum.Data.take (min (f.Checksum.NumBits / 8) ChecksumSizeMax) ++
        specMasterBytes rest

/-- The `masterCrcError` flag as claim C5 describes it: digest of the
capped concatenation versus the stored master value. -/
def specMasterCrcError (files : List File) (master : Checksum) : Bool :=
  if master.IsCrc32 then
    decide (CrcGetDigest (CrcUpdate CrcInitVal (specMasterBytes files)) ≠ master.GetCrc32)
  else false

/-- The bytes the code actually folds: like `specMasterBytes`, but an
entry whose byte length exceeds 128 also terminates the reduction
early (it contributes nothing and hides every later file). -/
def breakMasterBytes : List File → List Nat
  | [] => []
  | f :: rest =>
    if f.Checksum.NumBits &&& 0x7 ≠ 0 then []
    else if f.Checksum.NumBits >>> 3 > ChecksumSizeMax then []
    else f.Checksum.Data.take (f.Checksum.NumBits >>> 3) ++ breakMasterBytes rest

/-- File with a well-formed CRC entry of 1600 bits (200 bytes > 128). -/
def fileC5a : File :=
  { NewFile with Checksum := ⟨2, 1600, List.replicate 128 0⟩ }

/-- File with a 32-bit CRC entry over data 01 02 03 04. -/
def fileC5b : File :=
  { NewFile with Checksum := ⟨2, 32, [1, 2, 3, 4] ++ List.replicate 124 0⟩ }

/-- A CRC-32 master record whose stored value is 0. -/
def masterC5 : Checksum := ⟨2, 32, List.replicate 128 0⟩

/-! ## Sector-count verification (handler.go lines 419-437) -/

/-- The per-file sector loop: flags a wrong start sector, an oversized
per-file count, and an oversized running total (checked after the
wrapping uint64 addition, in the Go order). -/
def verifySectorsLoop : List File → Nat → Bool → Nat × Bool
  | [], sec, he => (sec, he)
  | f :: rest, sec, he =>
    verifySectorsLoop rest ((sec + f.NumUnpackSectors) % U64)
      (((he || decide (f.StartUnpackSector ≠ sec)) ||
          decide (f.NumUnpackSectors ≥ SectorNumberLimit)) ||
        decide ((sec + f.NumUnpackSectors) % U64 ≥ SectorNumberLimit))

/-- The whole sector-verification block: the loop from zero, then the
final comparison with the trailer sector count.  `he` is the
`headersError` flag value entering the block. -/
def verifySectors (files : List File) (numSectors : Nat) (he : Bool) : Bool :=
  let r := verifySectorsLoop files 0 he
  r.2 || decide (r.1 ≠ numSectors)

/-- Mish header: signature, version 1, start sector, sector count,
pack position 0, zeroed descriptor/checksum area, block count. -/
def mishHeader (start num numBlocks : Nat) : List Nat :=
  be32 0x6D697368 ++ be32 1 ++ be64 start ++ be64 num ++ be64 0 ++
    zeros 32 ++ zeros 136 ++ be32 numBlocks

/-- One 40-byte mish block record. -/
def mishRecord (ty sector count packPos packSize : Nat) : List Nat :=
  be32 ty ++ be32 0 ++ be64 sector ++ be64 count ++ be64 packPos ++ be64 packSize

/-- Mish table: start sector 0, 5 sectors, one zero-fill block, End. -/
def mishC9a : List Nat :=
  mishHeader 0 5 2 ++ mishRecord 0 0 5 0 0 ++ mishRecord MethodEnd 5 0 0 0

/-- Mish table: start sector 4 (inconsistent with the previous per-file
5 sectors), 3 sectors, one zero-fill block, End. -/
def mishC9b : List Nat :=
  mishHeader 4 3 2 ++ mishRecord 0 0 3 0 0 ++ mishRecord MethodEnd 3 0 0 0

/-- The parsed first C9 file. -/
def fileC9a : File := (File.Parse mishC9a).getD NewFile

/-- The parsed second C9 file. -/
def fileC9b : File := (File.Parse mishC9b).getD NewFile

/-! ## Read-stream errors and source reads -/

/-- Error outcomes of the read-stream operations.  `eof` is the Go
`io.EOF` returned at the end of the virtual stream; `panicOOB` models a
Go runtime slice/index panic; the rest are the error returns of
part_002 and decoder.go. -/
inductive ReadErr where
  | errMode
  | eof
  | srcEOF
  | seekFail
  | unsupportedDirect
  | noChunks
  | copyMismatch
  | adcCorrupt
  | lzInvalid
  | lzfseUnsupported
  | unsupportedMethod
  | decodeSizeMismatch
  | extFail
  | panicOOB
  | badWhence
  | negativePos
deriving DecidableEq

/-- Wrapping 64-bit subtraction (Go uint64 `a - b` for a, b < 2^64). -/
def sub64 (a b : Nat) : Nat :=
  (a + U64 - b % U64) % U64

/-- One Go `Read` call on the seekable source at absolute position
`pos`: returns the available bytes up to `len` (possibly fewer), or
`io.EOF` when the position is at or past the end. -/
def srcRead (src : List Nat) (pos len : Nat) : Except ReadErr (List Nat) :=
  if len = 0 then .ok []
  else if pos < src.length then .ok ((src.drop pos).take len)
  else .error .srcEOF

/-! ## ADC decoder (decoder.go)

The sliding output window (`lzOutWindow`, size 2^18, zero-initialised)
is modelled as a total map from positions to bytes, kept as an update
list with default 0.  The window is re-initialised on every `Decode`
call, so one call is a pure function of its input. -/

/-- The window size chosen in decoder.go: `1 << 18`. -/
def AdcWindowSize : Nat := 2 ^ 18

/-- The sliding output window: position map, write cursor, wrap flag. -/
structure AdcWindow where
  updates : List (Nat × Nat)
  pos : Nat
  isFull : Bool

/-- Read the window at a position (unwritten cells are 0, matching the
zero-initialised Go buffer). -/
def AdcWindow.get (w : AdcWindow) (i : Nat) : Nat :=
  match w.updates.find? (fun u => u.1 == i) with
  | some u => u.2
  | none => 0

/-- Go `lzOutWindow.putByte`: store at the cursor, advance it modulo the
window size, set the wrap flag when the cursor returns to 0. -/
def AdcWindow.put (w : AdcWindow) (b : Nat) : AdcWindow :=
  let p := (w.pos + 1) % AdcWindowSize
  { updates := (w.pos, b) :: w.updates, pos := p, isFull := w.isFull || p == 0 }

/-- The freshly initialised window. -/
def AdcWindow.initial : AdcWindow := ⟨[], 0, false⟩

/-- Put a run of literal bytes through the window, appending each to
the output. -/
def adcPutList (w : AdcWindow) (out : List Nat) : List Nat → AdcWindow × List Nat
  | [] => (w, out)
  | b :: rest => adcPutList (w.put b) (out ++ [b]) rest

/-- The byte-by-byte copy loop of `lzOutWindow.copyBlock`: read at the
copy cursor, advance it modulo the window size, and put the byte (so
self-overlapping matches re-read freshly written bytes). -/
def adcCopyLoop : Nat → Nat → AdcWindow → List Nat → AdcWindow × List Nat
  | 0, _, w, out => (w, out)
  | n + 1, cp, w, out => adcCopyLoop n ((cp + 1) % AdcWindowSize) (w.put (w.get cp)) (out ++ [w.get cp])

/-- Go `lzOutWindow.copyBlock`: reject a distance at or beyond the window
size; a distance at or beyond the cursor needs the wrap flag, and a
distance exactly equal to the cursor then computes the copy position
`size`, which indexes the Go buffer out of range (a runtime panic). -/
def adcCopyBlock (w : AdcWindow) (distance len : Nat) (out : List Nat) :
    Except ReadErr (AdcWindow × List Nat) :=
  if distance ≥ AdcWindowSize then .error .lzInvalid
  else if distance ≥ w.pos then
    if !w.isFull then .error .lzInvalid
    else
      let copyPos := AdcWindowSize - (distance - w.pos)
      if copyPos = AdcWindowSize then .error .panicOOB
      else .ok (adcCopyLoop len copyPos w out)
  else .ok (adcCopyLoop len (w.pos - distance) w out)

/-- The opcode loop of `AdcDecoder.Decode`.  Input exhaustion is the
`readByte` end-of-stream error; an opcode whose run would exceed the
remaining budget is corrupt.  Bytes are consumed from `input`, which
holds at most the block declared compressed size.  The first
argument is fuel: every iteration consumes at least one input byte, so
the initial fuel `input.length + 1` used by `adcDecode` never runs
out, and the fuel-exhaustion case is unreachable from there. -/
def adcLoop : Nat → List Nat → AdcWindow → List Nat → Nat → Nat → Except ReadErr (List Nat)
  | 0, _, _, _, _, _ => .error .srcEOF
  | fuel + 1, input, w, out, pos, unpSize =>
    if pos ≥ unpSize then .ok out
    else
      match input with
      | [] => .error .srcEOF
      | b :: rest =>
        let rem := unpSize - pos
        if b &&& 0x80 ≠ 0 then
          let num := b - 0x80 + 1
          if num > rem then .error .adcCorrupt
          else if rest.length < num then .error .srcEOF
          else
            let (w2, out2) := adcPutList w out (rest.take num)
            adcLoop fuel (rest.drop num) w2 out2 (pos + num) unpSize
        else
          match rest with
          | [] => .error .srcEOF
          | b1 :: rest1 =>
            if b &&& 0x40 ≠ 0 then
              match rest1 with
              | [] => .error .srcEOF
              | b2 :: rest2 =>
                let len := b - 0x40 + 4
                let distance := b1 * 256 + b2
                if len > rem then .error .adcCorrupt
                else
                  match adcCopyBlock w distance len out with
                  | .error e => .error e
                  | .ok (w2, out2) => adcLoop fuel rest2 w2 out2 (pos + len) unpSize
            else
              let len := b / 4 + 3
              let distance := (b &&& 3) * 256 + b1
              if len > rem then .error .adcCorrupt
              else
                match adcCopyBlock w distance len out with
                | .error e => .error e
                | .ok (w2, out2) => adcLoop fuel rest1 w2 out2 (pos + len) unpSize

/-- Go `AdcDecoder.Decode` over a fully fetched compressed input. -/
def adcDecode (input : List Nat) (unpSize : Nat) : Except ReadErr (List Nat) :=
  adcLoop (input.length + 1) input AdcWindow.initial [] 0 unpSize

/-! ## External codecs

The zlib, bzip2 and xz decoders call libraries outside this
repository (compress/zlib, compress/bzip2, github.com/ulikunitz/xz),
so their byte-level behaviour is a parameter.  Each Go decoder caps
its copy at the declared decompressed size and rejects a shorter
result, so a successful decode yields exactly `unpSize` bytes; the
`checkLen` wrapper imposes that contract on the parameter. -/

/-- The three library-backed decoders, as a parameter. -/
structure ExtCodecs where
  zlib : List Nat → Nat → Except ReadErr (List Nat)
  bzip2 : List Nat → Nat → Except ReadErr (List Nat)
  xz : List Nat → Nat → Except ReadErr (List Nat)

/-- The `written != unpSize` check each library-backed Go decoder makes. -/
def checkLen (unpSize : Nat) : Except ReadErr (List Nat) → Except ReadErr (List Nat)
  | .error e => .error e
  | .ok out => if out.length = unpSize then .ok out else .error .decodeSizeMismatch

/-- Codecs that always fail, for scenarios that never reach them. -/
def noCodecs : ExtCodecs :=
  { zlib := fun _ _ => .error .extFail
    bzip2 := fun _ _ => .error .extFail
    xz := fun _ _ => .error .extFail }

/-- Go `DecoderRegistry.GetDecoder` + `Decode`: route on the method code.
The LZFSE decoder returns "not implemented"; unrecognized methods fail at
`GetDecoder`. -/
def decodeBlock (cod : ExtCodecs) (ty : Nat) (input : List Nat) (unpSize : Nat) :
    Except ReadErr (List Nat) :=
  if ty = MethodADC then adcDecode input unpSize
  else if ty = MethodZLIB then checkLen unpSize (cod.zlib input unpSize)
  else if ty = MethodBZIP2 then checkLen unpSize (cod.bzip2 input unpSize)
  else if ty = MethodLZFSE then .error .lzfseUnsupported
  else if ty = MethodXZ then checkLen unpSize (cod.xz input unpSize)
  else .error .unsupportedMethod

/-! ## The read stream (part_002) -/

/-- A cache slot. -/
structure Chunk where
  BlockIndex : Int
  AccessMark : Nat
  Buf : List Nat
  BufSize : Nat
deriving DecidableEq

/-- The zero chunk, used only as an indexing default. -/
def dummyChunk : Chunk := ⟨-1, 0, [], 0⟩

/-- The read-stream state.  `latestChunk` and `latestBlock` are Go
ints with -1 meaning "none". -/
structure InStream where
  errorMode : Bool
  virtPos : Nat
  latestChunk : Int
  latestBlock : Int
  accessMark : Nat
  chunksTotalSize : Nat
  chunks : List Chunk
  src : List Nat
  file : File
  size : Nat
  startPos : Nat
deriving DecidableEq

/-- Go `NewInStream`. -/
def NewInStream (src : List Nat) (file : File) (startPos : Nat) : InStream :=
  { errorMode := false, virtPos := 0, latestChunk := -1, latestBlock := -1
    accessMark := 0, chunksTotalSize := 0, chunks := []
    src := src, file := file, size := file.Size, startPos := startPos }

/-- The binary-search loop of `findBlock`, with enough fuel for the
interval to collapse: each genuine iteration shrinks `right - left`,
so `blocks.length + 1` iterations always suffice from the initial
call, and the fuel case is never taken from `findBlock`. -/
def findBlockLoop (blocks : List Block) (pos : Nat) : Nat → Nat → Nat → Nat
  | 0, left, _ => left
  | fuel + 1, left, right =>
    let mid := (left + right) / 2
    if mid = left then left
    else if pos < (blocks.getD mid defaultBlock).UnpPos then
      findBlockLoop blocks pos fuel left mid
    else
      findBlockLoop blocks pos fuel mid right

/-- Go `InStream.findBlock`: binary search for the block containing `pos`. -/
def findBlock (f : File) (pos : Nat) : Nat :=
  findBlockLoop f.Blocks pos (f.Blocks.length + 1) 0 f.Blocks.length

/-- The eviction scan of `loadBlock`: the first index with the
strictly smallest access mark (the Go loop starts at 1 with best 0 and
replaces only on strictly smaller marks). -/
def argminMark (chunks : List Chunk) : Nat :=
  ((List.range chunks.length).drop 1).foldl
    (fun best i =>
      if (chunks.getD i dummyChunk).AccessMark < (chunks.getD best dummyChunk).AccessMark then i
      else best)
    0

/-- Go `InStream.loadBlock`: pick or evict a slot, stamp a fresh access
mark, allocate, read at most `PackSize` compressed bytes at the
block pack position, and decode.  The state is returned also on
error, since the Go method mutates the chunk slice in place; the
stray bytes a failed decode may have left in the buffer are not
modelled (the slot keeps block index -1, so they are unreachable). -/
def loadBlock (cod : ExtCodecs) (s : InStream) (blockIndex : Nat) :
    (Except ReadErr Nat) × InStream :=
  let block := s.file.Blocks.getD blockIndex defaultBlock
  let unpSize := s.file.GetUnpackSizeOfBlock blockIndex
  let sel : Except ReadErr (Nat × InStream) :=
    if s.chunks.length < NumChunksMax ∧ s.chunksTotalSize + unpSize ≤ ChunksTotalSizeMax then
      .ok (s.chunks.length, { s with chunks := s.chunks ++ [⟨-1, 0, [], 0⟩] })
    else if s.chunks.length = 0 then .error .noChunks
    else
      let ci := argminMark s.chunks
      let oldSize := (s.chunks.getD ci dummyChunk).BufSize
      .ok (ci,
        { s with
            chunks := s.chunks.set ci
              { s.chunks.getD ci dummyChunk with Buf := [], BufSize := 0 }
            chunksTotalSize := s.chunksTotalSize - oldSize })
  match sel with
  | .error e => (.error e, s)
  | .ok (ci, s) =>
    let s :=
      { s with
          chunks := s.chunks.set ci
            { BlockIndex := -1, AccessMark := s.accessMark
              Buf := List.replicate unpSize 0, BufSize := unpSize }
          accessMark := s.accessMark + 1
          chunksTotalSize := s.chunksTotalSize + unpSize }
    let pos := (s.startPos + s.file.StartPackPos + block.PackPos) % U64
    if pos ≥ 2 ^ 63 then (.error .seekFail, s)
    else
      let input := (s.src.drop pos).take block.PackSize
      let decoded : Except ReadErr (List Nat) :=
        if block.Ty = MethodCopy then
          if block.PackSize ≠ unpSize then .error .copyMismatch
          else if input.length < unpSize then .error .srcEOF
          else .ok (input.take unpSize)
        else decodeBlock cod block.Ty input unpSize
      match decoded with
      | .error e => (.error e, s)
      | .ok out =>
        (.ok ci,
          { s with
              chunks := s.chunks.set ci
                { s.chunks.getD ci dummyChunk with
                    BlockIndex := Int.ofNat blockIndex, Buf := out } })

/-- The latest-block invalidation at the top of `InStream.Read`: drop
the cached choice when the cursor left the block.  The Go subtraction
is short-circuit-guarded by `virtPos < UnpPos`, so Nat subtraction
agrees. -/
def invalidateLatest (s : InStream) : InStream :=
  if s.latestBlock ≥ 0 then
    let lb := s.latestBlock.toNat
    let block := s.file.Blocks.getD lb defaultBlock
    let unpSize := s.file.GetUnpackSizeOfBlock lb
    if s.virtPos < block.UnpPos || decide (s.virtPos - block.UnpPos ≥ unpSize) then
      { s with latestBlock := -1 }
    else s
  else s

/-- The block lookup of `InStream.Read`: on a cache miss for a
bufferable block, `loadBlock` runs, and its failure sets the sticky
`errorMode` (the error branch of the result). -/
def lookupStep (cod : ExtCodecs) (s : InStream) :
    Except (ReadErr × InStream) InStream :=
  if s.latestBlock < 0 then
    let s := { s with latestChunk := -1 }
    let blockIndex := findBlock s.file s.virtPos
    let block := s.file.Blocks.getD blockIndex defaultBlock
    let unpSize := s.file.GetUnpackSizeOfBlock blockIndex
    if block.NeedAllocateBuffer && decide (unpSize ≤ ChunkSizeMax) then
      match s.chunks.findIdx? (fun c => c.BlockIndex == Int.ofNat blockIndex) with
      | some ci =>
        .ok { s with latestChunk := Int.ofNat ci, latestBlock := Int.ofNat blockIndex }
      | none =>
        match loadBlock cod s blockIndex with
        | (.error e, s) => .error (e, { s with errorMode := true })
        | (.ok ci, s) =>
          .ok { s with latestChunk := Int.ofNat ci, latestBlock := Int.ofNat blockIndex }
    else .ok { s with latestBlock := Int.ofNat blockIndex }
  else .ok s

/-- The serving stage of `InStream.Read` (part_002 lines 243-283).
In the cached-chunk branch the Go code copies the `Chunk` struct into
a local variable and stores the fresh access mark into that copy, so
the slice element keeps its old mark while the counter still
advances; the model therefore leaves `chunks` unchanged there.
A source I/O failure in the Copy branch returns the error without
setting `errorMode`; only the final unsupported-type branch sets it. -/
def serveStep (s : InStream) (toRead destLen : Nat) :
    (Except ReadErr (List Nat)) × InStream :=
  let lb := s.latestBlock.toNat
  let block := s.file.Blocks.getD lb defaultBlock
  let offset := sub64 s.virtPos block.UnpPos
  let blockSize := s.file.GetUnpackSizeOfBlock lb
  let toRead := if (offset + toRead) % U64 > blockSize then sub64 blockSize offset else toRead
  if block.IsZeroMethod then
    if toRead > destLen then (.error .panicOOB, s)
    else (.ok (List.replicate toRead 0), { s with virtPos := s.virtPos + toRead })
  else if s.latestChunk ≥ 0 then
    let ci := s.latestChunk.toNat
    let chunk := s.chunks.getD ci dummyChunk
    if toRead > destLen || decide ((offset + toRead) % U64 > chunk.Buf.length) then
      (.error .panicOOB, s)
    else
      (.ok ((chunk.Buf.drop offset).take toRead),
        { s with accessMark := s.accessMark + 1, virtPos := s.virtPos + toRead })
  else if block.Ty = MethodCopy then
    if toRead > destLen then (.error .panicOOB, s)
    else
      let pos := (s.startPos + s.file.StartPackPos + block.PackPos + offset) % U64
      if pos ≥ 2 ^ 63 then (.error .seekFail, s)
      else
        match srcRead s.src pos toRead with
        | .error e => (.error e, s)
        | .ok bytes => (.ok bytes, { s with virtPos := s.virtPos + bytes.length })
  else (.error .unsupportedDirect, { s with errorMode := true })

/-- Go `InStream.Read`: error-mode gate, empty and EOF cases, clipping to
the remaining stream, invalidation, lookup (with `loadBlock` failures
setting `errorMode`), and the serving stage. -/
def InStream.read (cod : ExtCodecs) (s : InStream) (destLen : Nat) :
    (Except ReadErr (List Nat)) × InStream :=
  if s.errorMode then (.error .errMode, s)
  else if destLen = 0 then (.ok [], s)
  else if s.virtPos ≥ s.size then (.error .eof, s)
  else
    let remain := s.size - s.virtPos
    let toRead := min destLen remain
    match lookupStep cod (invalidateLatest s) with
    | .error (e, s) => (.error e, s)
    | .ok s => serveStep s toRead destLen

/-- Go `InStream.Seek`: whence-based positioning; a negative result fails
without moving the cursor.  Positions stay far below 2^63 in every
scenario here, so int64 wrap-around of the addition is not modelled. -/
def InStream.seek (s : InStream) (offset : Int) (whence : Nat) :
    (Except ReadErr Int) × InStream :=
  let newPos : Except ReadErr Int :=
    if whence = 0 then .ok offset
    else if whence = 1 then .ok ((s.virtPos : Int) + offset)
    else if whence = 2 then .ok ((s.size : Int) + offset)
    else .error .badWhence
  match newPos with
  | .error e => (.error e, s)
  | .ok np =>
    if np < 0 then (.error .negativePos, s)
    else (.ok np, { s with virtPos := np.toNat })

/-- The block index a fresh lookup resolves for the current cursor. -/
def curBlockIndex (s : InStream) : Nat := findBlock s.file s.virtPos

/-- That block. -/
def curBlock (s : InStream) : Block :=
  s.file.Blocks.getD (curBlockIndex s) defaultBlock

/-- The byte count a read of `destLen` bytes serves from the current
block: clipped to the remaining stream, then to the block boundary. -/
def clippedLen (s : InStream) (destLen : Nat) : Nat :=
  if (s.virtPos - (curBlock s).UnpPos) + min destLen (s.size - s.virtPos) >
      s.file.GetUnpackSizeOfBlock (curBlockIndex s) then
    s.file.GetUnpackSizeOfBlock (curBlockIndex s) - (s.virtPos - (curBlock s).UnpPos)
  else min destLen (s.size - s.virtPos)

/-- The absolute source position a Copy-block direct read starts at. -/
def copyReadPos (s : InStream) : Nat :=
  s.startPos + s.file.StartPackPos + (curBlock s).PackPos +
    (s.virtPos - (curBlock s).UnpPos)

/-! ### Concrete stream scenarios -/

/-- Two-block file: a Copy block for the first 512 virtual bytes whose
pack range lies beyond the source, then a zero-fill block. -/
def fileC4 : File :=
  { NewFile with
      Size := 1024
      Blocks := [⟨MethodCopy, 0, 0, 512⟩, ⟨MethodZero0, 512, 512, 0⟩]
      NumUnpackSectors := 2, IsCorrect := true, FullFileChecksum := true }

/-- Stream over an empty source, so the Copy block direct read
hits end-of-file. -/
def streamC4 : InStream := NewInStream [] fileC4 0

/-- State after the failing first read. -/
def streamC4a : InStream := (InStream.read noCodecs streamC4 4).2

/-- State after seeking to the zero block. -/
def streamC4b : InStream := (InStream.seek streamC4a 512 0).2

/-- A 16-byte source with distinct bytes. -/
def srcC7 : List Nat := [0, 1, 2, 3, 4, 5, 6, 7, 8, 9, 10, 11, 12, 13, 14, 15]

/-- Single Copy block whose compressed size 0 differs from its
decompressed size 16. -/
def fileC7 : File :=
  { NewFile with
      Size := 16
      Blocks := [⟨MethodCopy, 0, 0, 0⟩]
      IsCorrect := true, FullFileChecksum := true }

/-- Stream over `srcC7`. -/
def streamC7 : InStream := NewInStream srcC7 fileC7 0

/-- Two-byte ADC payload: a literal run of one byte 0x41. -/
def srcC8 : List Nat := [0x80, 0x41]

/-- Single one-byte ADC block over that payload. -/
def fileC8 : File :=
  { NewFile with
      Size := 1
      Blocks := [⟨MethodADC, 0, 0, 2⟩]
      IsCorrect := true, FullFileChecksum := true }

/-- Stream over `srcC8`. -/
def streamC8 : InStream := NewInStream srcC8 fileC8 0

/-- State after the first read (block loaded into chunk 0, served). -/
def streamC8a : InStream := (InStream.read noCodecs streamC8 1).2

/-- State after seeking back to 0. -/
def streamC8b : InStream := (InStream.seek streamC8a 0 0).2

/-- State after the second read, served from the cached chunk. -/
def streamC8c : InStream := (InStream.read noCodecs streamC8b 1).2

/-! ## CRC pipeline lemmas -/

theorem crcFold_append (c : Nat) (a b : List Nat) :
    crcFold c (a ++ b) = crcFold (crcFold c a) b := by
  simp [crcFold, List.foldl_append]

theorem CrcUpdate_nil (c : Nat) : CrcUpdate c [] = c := by
  simp [CrcUpdate, crcFold, Nat.xor_cancel_right]

theorem CrcUpdate_append (c : Nat) (a b : List Nat) :
    CrcUpdate (CrcUpdate c a) b = CrcUpdate c (a ++ b) := by
  simp [CrcUpdate, crcFold_append, Nat.xor_cancel_right]

theorem crcDigest_pipeline (d : List Nat) :
    CrcGetDigest (CrcUpdate CrcInitVal d) = crcFold 0 d := by
  simp [CrcGetDigest, CrcUpdate, CrcInitVal, Nat.xor_self, Nat.xor_cancel_right]

theorem crcRound_zero : crcRound 0 0 = 0 := by decide

theorem crcFold_zeros (n : Nat) : crcFold 0 (List.replicate n 0) = 0 := by
  induction n with
  | zero => rfl
  | succ k ih =>
    simp only [crcFold, List.replicate_succ, List.foldl_cons, crcRound_zero] at ih ⊢
    exact ih

/-! ## Claim theorems -/

/-- C1: the handler CRC pipeline — start from `CrcInitVal`, fold
through `CrcUpdate`, apply `CrcGetDigest` — does not compute the
standard IEEE CRC-32: on the single byte 0x00 the pipeline yields 0
while the standard checksum is 0xD202EF8D.  `CrcUpdate` wraps the Go
`crc32.Update`, which already applies the 0xFFFFFFFF pre/post
conditioning, so seeding it with 0xFFFFFFFF and XOR-ing the result
again double-applies the conditioning. -/
theorem crcPipeline_ne_checksumIEEE_at_zero_byte :
    CrcGetDigest (CrcUpdate CrcInitVal [0]) = 0 ∧
    crc32ChecksumIEEE [0] = 0xD202EF8D ∧
    CrcGetDigest (CrcUpdate CrcInitVal [0]) ≠ crc32ChecksumIEEE [0] := by
  decide

/-- C2 counterexample: on `srcC2` the trailer is found at the end, the
parsed data fork offset is 512, and 512 is strictly below the
container size 1024, yet Open does not promote to front-Koly mode and
the fork-bound limit stays the trailer position 512 rather than the
container size. -/
theorem endKoly_promotion_counterexample :
    IsKoly ((srcC2.drop (srcC2.length - KolyHeaderSize)).take KolyHeaderSize) = true ∧
    openLayout srcC2 = .ok stateC2 ∧
    stateC2.dataForkPair.Offset = KolyHeaderSize ∧
    KolyHeaderSize < srcC2.length ∧
    stateC2.frontKolyMode = false ∧
    stateC2.limit = srcC2.length - KolyHeaderSize ∧
    stateC2.limit ≠ srcC2.length := by
  decide

/-- C3 counterexample: on `srcC3` the trailer is recognized and the
data fork pair (offset 0, length 1) exceeds the limit 0, and Open
aborts with an error instead of returning success with only the
headers-error flag set. -/
theorem dataFork_bound_violation_aborts_open :
    IsKoly ((srcC3.drop (srcC3.length - KolyHeaderSize)).take KolyHeaderSize) = true ∧
    ¬ pairInBounds (ForkPair.Parse (srcC3.drop 0x18)) 0 ∧
    openLayout srcC3 = .error .invalidDataFork := by
  decide

/-- C4 counterexample: on `streamC4`, the first read fails with a
source I/O error in the Copy direct-read branch, the stream does not
enter error mode, and after a seek the next read succeeds — so a
failed read does not make every subsequent read fail. -/
theorem copy_read_failure_not_sticky :
    (InStream.read noCodecs streamC4 4).1 = .error .srcEOF ∧
    streamC4a.errorMode = false ∧
    (InStream.read noCodecs streamC4b 4).1 = .ok [0, 0, 0, 0] := by
  decide

/-- C8: on `streamC8`, the ADC block is loaded into chunk 0 with
access mark 0, and two reads served from that cached chunk advance the
counter to 3 — yet the stored chunk keeps mark 0, because the serving
code stores the fresh mark into a by-value copy of the `Chunk` struct.
The claim that the stored mark of the chunk is bumped to a fresh value
fails. -/
theorem cached_chunk_access_mark_stale :
    (InStream.read noCodecs streamC8 1).1 = .ok [0x41] ∧
    (InStream.read noCodecs streamC8b 1).1 = .ok [0x41] ∧
    streamC8c.accessMark = 3 ∧
    (streamC8c.chunks.getD 0 dummyChunk).AccessMark = 0 := by
  decide

/-- C9 counterexample: two mish tables parse into correct files whose
sector counts sum to the trailer total 8, yet the verification block
sets the headers error (the second per-file start sector 4 is
inconsistent), so the sum matching the total does not imply
headers-ok. -/
theorem sector_sum_match_headers_error_counterexample :
    (File.Parse mishC9a).isSome = true ∧ (File.Parse mishC9b).isSome = true ∧
    fileC9a.IsCorrect = true ∧ fileC9b.IsCorrect = true ∧
    fileC9a.NumUnpackSectors + fileC9b.NumUnpackSectors = 8 ∧
    verifySectors [fileC9a, fileC9b] 8 false = true := by
  decide

/-- C10: on `srcC10` — end-Koly, top 4 ≠ trailer position 512, XML fork
length 4 — the probe read succeeds with a 4-byte buffer and the
comparison against the 13-byte signature indexes the buffer out of
bounds: the model returns the slice-panic error (the Go code panics at
`xmlBuf[:13]`). -/
theorem xml_probe_slice_panic :
    IsKoly ((srcC10.drop (srcC10.length - KolyHeaderSize)).take KolyHeaderSize) = true ∧
    (ForkPair.Parse ((srcC10.drop 512).drop 0xD8)).Len = 4 ∧
    openLayout srcC10 = .error .panicSliceOOB := by
  decide

/-- C5 counterexample: with a first file whose checksum is 1600 bits
(200 bytes) and a second 32-bit entry over bytes 01 02 03 04, against
a stored master value 0, the fold in the code breaks at the oversized entry
and reports no mismatch, while the capped fold of the claim would
report one. -/
theorem master_crc_cap_vs_break_counterexample :
    masterCheckPhase [fileC5a, fileC5b] masterC5 = false ∧
    specMasterCrcError [fileC5a, fileC5b] masterC5 = true := by
  constructor
  · decide
  · have hIs : masterC5.IsCrc32 = true := by decide
    have hcrc : masterC5.GetCrc32 = 0 := by decide
    unfold specMasterCrcError
    rw [hIs, hcrc,
      show specMasterBytes [fileC5a, fileC5b] = List.replicate 128 0 ++ [1, 2, 3, 4] from by decide,
      crcDigest_pipeline, crcFold_append, crcFold_zeros]
    simp only [if_true, decide_eq_true_eq]
    decide

theorem masterLoop_eq_breakFold (files : List File) :
    ∀ crc, masterLoop files crc = CrcUpdate crc (breakMasterBytes files) := by
  induction files with
  | nil => intro crc; simp [masterLoop, breakMasterBytes, CrcUpdate_nil]
  | cons f rest ih =>
    intro crc
    by_cases h1 : f.Checksum.NumBits &&& 0x7 ≠ 0
    · simp [masterLoop, breakMasterBytes, h1, CrcUpdate_nil]
    · by_cases h2 : f.Checksum.NumBits >>> 3 > ChecksumSizeMax
      · simp [masterLoop, breakMasterBytes, h1, h2, CrcUpdate_nil]
      · simp [masterLoop, breakMasterBytes, h1, h2, ih, CrcUpdate_append]

/-- C5 amended: the master-CRC phase flags a mismatch exactly against
the digest of the break-fold concatenation: each file contributes its
checksum data prefix of length num_bits/8, and an entry whose bit
count is not a multiple of 8 **or whose byte length exceeds 128**
terminates the reduction early (the oversized entry is not capped at
128 as the claim stated; it and all later files are skipped). -/
theorem masterCheckPhase_eq_breakFold (files : List File) (master : Checksum) :
    masterCheckPhase files master =
      (master.IsCrc32 &&
        decide (CrcGetDigest (CrcUpdate CrcInitVal (breakMasterBytes files)) ≠ master.GetCrc32)) := by
  unfold masterCheckPhase
  rw [masterLoop_eq_breakFold files CrcInitVal]
  by_cases h : master.IsCrc32 <;> simp [h]

theorem verifySectorsLoop_stays_true (files : List File) :
    ∀ sec, (verifySectorsLoop files sec true).2 = true := by
  induction files with
  | nil => intro sec; rfl
  | cons f rest ih => intro sec; simp only [verifySectorsLoop, Bool.true_or]; exact ih _

theorem verifySectorsLoop_exact (files : List File) :
    ∀ sec, sec < SectorNumberLimit →
      (verifySectorsLoop files sec false).2 = false →
      (verifySectorsLoop files sec false).1 =
        sec + (files.map (fun f => f.NumUnpackSectors)).sum ∧
      sec + (files.map (fun f => f.NumUnpackSectors)).sum < SectorNumberLimit := by
  induction files with
  | nil =>
    intro sec h1 _
    simpa [verifySectorsLoop] using h1
  | cons f rest ih =>
    intro sec h1 h2
    simp only [verifySectorsLoop, Bool.false_or] at h2 ⊢
    have hhe : (decide (f.StartUnpackSector ≠ sec) ||
        decide (f.NumUnpackSectors ≥ SectorNumberLimit) ||
        decide ((sec + f.NumUnpackSectors) % U64 ≥ SectorNumberLimit)) = false := by
      by_contra hc
      rw [Bool.not_eq_false] at hc
      rw [hc, verifySectorsLoop_stays_true] at h2
      exact absurd h2 (by simp)
    rw [hhe] at h2 ⊢
    have hparts := hhe
    simp only [Bool.or_eq_false_iff, decide_eq_false_iff_not, not_le] at hparts
    obtain ⟨⟨-, hnum⟩, hsec⟩ := hparts
    have hlt : sec + f.NumUnpackSectors < U64 := by
      have h64 : SectorNumberLimit + SectorNumberLimit ≤ U64 := by decide
      omega
    have hw : (sec + f.NumUnpackSectors) % U64 = sec + f.NumUnpackSectors :=
      Nat.mod_eq_of_lt hlt
    rw [hw] at h2 hsec ⊢
    obtain ⟨ha, hb⟩ := ih (sec + f.NumUnpackSectors) hsec h2
    simp only [List.map_cons, List.sum_cons]
    constructor
    · rw [ha]; omega
    · omega

/-- C9 amended: the converse direction holds — whenever the sector
verification block leaves the headers-error flag clear, the per-file
sector counts sum (exactly, with no uint64 wrap) to the trailer field
total sector count.  The claimed direction fails because the flag also
records start-sector inconsistencies and size caps. -/
theorem headers_ok_implies_sector_sum (files : List File) (numSectors : Nat)
    (h : verifySectors files numSectors false = false) :
    (files.map (fun f => f.NumUnpackSectors)).sum = numSectors := by
  unfold verifySectors at h
  rw [Bool.or_eq_false_iff] at h
  obtain ⟨h2, h3⟩ := h
  have hlim : (0 : Nat) < SectorNumberLimit := by decide
  obtain ⟨ha, -⟩ := verifySectorsLoop_exact files 0 hlim h2
  rw [decide_eq_false_iff_not, not_not] at h3
  omega

theorem headers_ok_implies_sector_sum_witness :
    ([fileC9a].map (fun f => f.NumUnpackSectors)).sum = 5 :=
  headers_ok_implies_sector_sum [fileC9a] 5 (by decide)

/-- C4 amended: the sticky error state exists, but it is entered only
by block-load/decode failures and by the unsupported-method direct
path, not by Copy-path source I/O errors: once `errorMode` is set,
every subsequent read fails with the error-mode error and the flag
stays set. -/
theorem errorMode_sticky (cod : ExtCodecs) (s : InStream) (destLen : Nat)
    (h : s.errorMode = true) :
    (InStream.read cod s destLen).1 = .error .errMode ∧
    (InStream.read cod s destLen).2.errorMode = true := by
  unfold InStream.read
  rw [h]
  exact ⟨by simp, by simp [h]⟩

theorem errorMode_sticky_witness :
    (InStream.read noCodecs { streamC4 with errorMode := true } 4).1 = .error .errMode ∧
    (InStream.read noCodecs { streamC4 with errorMode := true } 4).2.errorMode = true :=
  errorMode_sticky noCodecs { streamC4 with errorMode := true } 4 rfl

/-- C6 counterexample: on `srcC6` — end-Koly, top 13 ≠ trailer
position 512 — the four bytes at the declared XML offset are exactly
the ASCII bytes of the four-character probe text, yet Open sets
start_pos to header_pos - top = 499: the probe compares 13 bytes
against the full signature, not 4. -/
theorem xml_probe_four_byte_counterexample :
    srcC6.take 4 = [0x3C, 0x3F, 0x78, 0x6D] ∧
    openLayout srcC6 = .ok stateC6 ∧
    stateC6.frontKolyMode = false ∧
    stateC6.xmlPair.Offset = 0 ∧
    stateC6.top = 13 ∧ stateC6.headerPos = 512 ∧
    stateC6.startPos = 499 := by
  decide

/-- C7 counterexample: the single block of `fileC7` is a Copy block whose
compressed size 0 differs from its decompressed size 16, yet a read
touching it does not fail: it returns the 16 raw source bytes.  The
size-mismatch rejection sits in `loadBlock`, which reads of Copy
blocks never reach. -/
theorem copy_mismatch_not_rejected :
    (fileC7.Blocks.getD 0 defaultBlock).Ty = MethodCopy ∧
    (fileC7.Blocks.getD 0 defaultBlock).PackSize ≠ fileC7.GetUnpackSizeOfBlock 0 ∧
    (InStream.read noCodecs streamC7 16).1 = .ok srcC7 := by
  decide

theorem locateTrailer_end (src : List Nat)
    (h1 : KolyHeaderSize ≤ src.length)
    (h2 : IsKoly ((src.drop (src.length - KolyHeaderSize)).take KolyHeaderSize) = true) :
    locateTrailer src =
      .ok (src.length - KolyHeaderSize,
        (src.drop (src.length - KolyHeaderSize)).take KolyHeaderSize, false) := by
  unfold locateTrailer readAt
  rw [if_neg (by omega), if_pos (by omega)]
  simp [h2]

theorem finishLayout_fields (src : List Nat) (headerPos : Nat) (tf : TrailerFields)
    (fkm : Bool) (limit top : Nat) (useBlob : Bool) (st : LayoutState)
    (h : finishLayout src headerPos tf fkm limit top useBlob = .ok st) :
    st.frontKolyMode = fkm ∧ st.limit = limit ∧ st.headerPos = headerPos ∧
    st.top = top ∧ st.dataForkPair = tf.dataForkPair ∧ st.xmlPair = tf.xmlPair ∧
    st.rsrcPair = tf.rsrcPair := by
  unfold finishLayout at h
  repeat' split at h
  all_goals first
    | exact Except.noConfusion h
    | (injection h with h'; subst h'; exact ⟨rfl, rfl, rfl, rfl, rfl, rfl, rfl⟩)

theorem openWithFields_no_promote (src : List Nat) (headerPos : Nat) (tf : TrailerFields)
    (st : LayoutState)
    (hd : decide (KolyHeaderSize + headerPos < src.length) = false)
    (h : openWithFields src headerPos tf false = .ok st) :
    st.frontKolyMode = false ∧ st.limit = headerPos := by
  unfold openWithFields at h
  simp only [hd, Bool.and_false, Bool.or_false, Bool.false_or, Bool.false_eq_true,
    if_false] at h
  repeat' split at h
  all_goals first
    | exact Except.noConfusion h
    | (obtain ⟨hf, hl, -, -, -, -, -⟩ := finishLayout_fields _ _ _ _ _ _ _ _ h
       exact ⟨hf, hl⟩)

/-- C2 amended: when the trailer is found at the end, the promotion
condition is `512 + header_pos < container_size` with
`header_pos = container_size - 512`, which is false — so Open never
promotes such a source to front-Koly mode, whatever the data fork
offset; every successful open keeps end-Koly layout, with the
fork-bound limit equal to the trailer position. -/
theorem endKoly_never_promotes (src : List Nat) (st : LayoutState)
    (h1 : KolyHeaderSize ≤ src.length)
    (h2 : IsKoly ((src.drop (src.length - KolyHeaderSize)).take KolyHeaderSize) = true)
    (h : openLayout src = .ok st) :
    st.frontKolyMode = false ∧ st.limit = src.length - KolyHeaderSize := by
  unfold openLayout at h
  rw [locateTrailer_end src h1 h2] at h
  exact openWithFields_no_promote src _ _ st (decide_eq_false (by omega)) h

theorem endKoly_never_promotes_witness :
    stateC2.frontKolyMode = false ∧ stateC2.limit = srcC2.length - KolyHeaderSize :=
  endKoly_never_promotes srcC2 stateC2 (by decide) (by decide) (by decide)

theorem UpdateTop_some_bounds {f : ForkPair} {limit top t : Nat}
    (h : f.UpdateTop limit top = some t) : pairInBounds f limit := by
  unfold ForkPair.UpdateTop at h
  split at h
  · exact Option.noConfusion h
  · rename_i hc
    simp only [Bool.or_eq_true, decide_eq_true_eq, not_or, Nat.not_lt] at hc
    exact ⟨hc.1, hc.2⟩

theorem openWithFields_ok_fork_bounds (src : List Nat) (headerPos : Nat)
    (tf : TrailerFields) (fk : Bool) (st : LayoutState)
    (h : openWithFields src headerPos tf fk = .ok st) :
    pairInBounds st.dataForkPair st.limit ∧ pairInBounds st.xmlPair st.limit ∧
    pairInBounds st.rsrcPair st.limit := by
  unfold openWithFields at h
  by_cases hb : (fk || (tf.dataForkPair.Offset == KolyHeaderSize &&
      decide (KolyHeaderSize + headerPos < src.length))) = true
  · simp only [hb, eq_self_iff_true, if_true] at h
    repeat' split at h
    all_goals first
      | exact Except.noConfusion h
      | (obtain ⟨-, hl, -, -, hdp, hx, hr⟩ := finishLayout_fields _ _ _ _ _ _ _ _ h
         rw [hl, hdp, hx, hr]
         exact ⟨UpdateTop_some_bounds (by assumption),
           UpdateTop_some_bounds (by assumption),
           UpdateTop_some_bounds (by assumption)⟩)
  · rw [Bool.not_eq_true] at hb
    simp only [hb, Bool.false_eq_true, if_false] at h
    repeat' split at h
    all_goals first
      | exact Except.noConfusion h
      | (obtain ⟨-, hl, -, -, hdp, hx, hr⟩ := finishLayout_fields _ _ _ _ _ _ _ _ h
         rw [hl, hdp, hx, hr]
         exact ⟨UpdateTop_some_bounds (by assumption),
           UpdateTop_some_bounds (by assumption),
           UpdateTop_some_bounds (by assumption)⟩)

/-- C3 amended: a data, xml, or rsrc fork pair whose end exceeds the
fork-bound limit makes Open return an error rather than success with a
status bit: every successful open has all three pairs within the
limit.  (Only the blob pair may fail the bound without aborting.) -/
theorem openLayout_ok_implies_fork_bounds (src : List Nat) (st : LayoutState)
    (h : openLayout src = .ok st) :
    pairInBounds st.dataForkPair st.limit ∧ pairInBounds st.xmlPair st.limit ∧
    pairInBounds st.rsrcPair st.limit := by
  unfold openLayout at h
  split at h
  · exact Except.noConfusion h
  · exact openWithFields_ok_fork_bounds _ _ _ _ _ h

theorem openLayout_ok_implies_fork_bounds_witness :
    pairInBounds stateC6.dataForkPair stateC6.limit ∧
    pairInBounds stateC6.xmlPair stateC6.limit ∧
    pairInBounds stateC6.rsrcPair stateC6.limit :=
  openLayout_ok_implies_fork_bounds srcC6 stateC6 (by decide)

theorem xmlProbe_startPos (src : List Nat) (headerPos top : Nat) (xml : ForkPair)
    (sp ps : Nat) (h : xmlProbe src headerPos top xml = .ok (sp, ps)) :
    sp = if probeMatches src xml then 0 else headerPos - top := by
  unfold xmlProbe at h
  unfold probeMatches
  simp only [Nat.zero_add] at h
  split at h
  · rename_i hra
    rw [hra]
    injection h with h'
    injection h' with ha hb
    simp [← ha]
  · rename_i buf hra
    rw [hra]
    split at h
    · exact Except.noConfusion h
    · split at h
      · rename_i hsig
        injection h with h'
        injection h' with ha hb
        simp [hsig, ← ha]
      · rename_i hsig
        injection h with h'
        injection h' with ha hb
        rw [Option.map_some', Option.getD_some, if_neg (by simpa using hsig), ← ha]

theorem finishLayout_end_startPos (src : List Nat) (headerPos : Nat) (tf : TrailerFields)
    (limit top : Nat) (useBlob : Bool) (st : LayoutState)
    (h : finishLayout src headerPos tf false limit top useBlob = .ok st)
    (htop : st.top ≠ st.headerPos) :
    st.startPos = if probeMatches src st.xmlPair then 0 else st.headerPos - st.top := by
  unfold finishLayout at h
  simp only [Bool.false_eq_true, if_false] at h
  split at h
  · split at h
    · exact Except.noConfusion h
    · injection h with h'
      subst h'
      exact xmlProbe_startPos _ _ _ _ _ _ (by assumption)
  · injection h with h'
    subst h'
    exact absurd htop (by assumption)

theorem openWithFields_end_probe (src : List Nat) (headerPos : Nat) (tf : TrailerFields)
    (st : LayoutState)
    (hd : decide (KolyHeaderSize + headerPos < src.length) = false)
    (h : openWithFields src headerPos tf false = .ok st)
    (htop : st.top ≠ st.headerPos) :
    st.startPos = if probeMatches src st.xmlPair then 0 else st.headerPos - st.top := by
  unfold openWithFields at h
  simp only [hd, Bool.and_false, Bool.or_false, Bool.false_or, Bool.false_eq_true,
    if_false] at h
  repeat' split at h
  all_goals first
    | exact Except.noConfusion h
    | exact finishLayout_end_startPos _ _ _ _ _ _ _ h htop

/-- C6 amended: for an end-found trailer with `top ≠ header_pos`, Open
reads min(xml.length, 13) bytes at the declared XML offset and leaves
start_pos at 0 exactly when those bytes equal the full 13-byte
signature; a shorter match (such as just the first four characters), a
differing byte, or a failed read yields start_pos = header_pos - top. -/
theorem xml_probe_thirteen_byte_signature (src : List Nat) (st : LayoutState)
    (h1 : KolyHeaderSize ≤ src.length)
    (h2 : IsKoly ((src.drop (src.length - KolyHeaderSize)).take KolyHeaderSize) = true)
    (h : openLayout src = .ok st)
    (htop : st.top ≠ st.headerPos) :
    st.startPos = if probeMatches src st.xmlPair then 0 else st.headerPos - st.top := by
  unfold openLayout at h
  rw [locateTrailer_end src h1 h2] at h
  exact openWithFields_end_probe src _ _ st (decide_eq_false (by omega)) h htop

theorem xml_probe_thirteen_byte_signature_witness :
    stateC6.startPos =
      if probeMatches srcC6 stateC6.xmlPair then 0 else stateC6.headerPos - stateC6.top :=
  xml_probe_thirteen_byte_signature srcC6 stateC6 (by decide) (by decide) (by decide)
    (by decide)

theorem sub64_eq {a b : Nat} (hba : b ≤ a) (ha : a < U64) : sub64 a b = a - b := by
  have ha2 : a < 2 ^ 64 := ha
  show (a + 2 ^ 64 - b % 2 ^ 64) % 2 ^ 64 = a - b
  have hb : b % 2 ^ 64 = b := Nat.mod_eq_of_lt (by omega)
  rw [hb]
  have h2 : a + 2 ^ 64 - b = a - b + 2 ^ 64 := by omega
  rw [h2, Nat.add_mod_right]
  exact Nat.mod_eq_of_lt (by omega)

theorem intToNat_ofNat (n : Nat) : (Int.ofNat n).toNat = n := rfl

/-- C7 amended: a read positioned in a Copy block bypasses the cache
entirely and returns exactly the raw source bytes at
`start_pos + start_pack_pos + block.pack_pos + offset-in-block`,
regardless of whether the block compressed size matches its
decompressed size: the size-mismatch rejection lives only in
`loadBlock`, which Copy blocks never reach.  The hypotheses say the
failure modes are absent: in-bounds cursor, in-bounds source range, no
64-bit overflow. -/
theorem copy_block_direct_read_bytes (cod : ExtCodecs) (s : InStream) (destLen : Nat)
    (herr : s.errorMode = false) (hlb : s.latestBlock = -1) (hn : destLen ≠ 0)
    (hpos : s.virtPos < s.size)
    (hty : (curBlock s).Ty = MethodCopy)
    (hup : (curBlock s).UnpPos ≤ s.virtPos)
    (hin : s.virtPos - (curBlock s).UnpPos < s.file.GetUnpackSizeOfBlock (curBlockIndex s))
    (hvp : s.virtPos < 2 ^ 63) (hdl : destLen < 2 ^ 63)
    (hbs : s.file.GetUnpackSizeOfBlock (curBlockIndex s) < 2 ^ 63)
    (hpk : copyReadPos s < 2 ^ 63)
    (hsrc : copyReadPos s + clippedLen s destLen ≤ s.src.length) :
    (InStream.read cod s destLen).1 =
      .ok ((s.src.drop (copyReadPos s)).take (clippedLen s destLen)) ∧
    (InStream.read cod s destLen).2.errorMode = false := by
  have hneg : s.latestBlock < 0 := by rw [hlb]; norm_num
  have hty2 : (s.file.Blocks.getD (findBlock s.file s.virtPos) defaultBlock).Ty = MethodCopy := hty
  have hup2 : (s.file.Blocks.getD (findBlock s.file s.virtPos) defaultBlock).UnpPos ≤ s.virtPos := hup
  have hin2 : s.virtPos - (s.file.Blocks.getD (findBlock s.file s.virtPos) defaultBlock).UnpPos <
      s.file.GetUnpackSizeOfBlock (findBlock s.file s.virtPos) := hin
  have hbs2 : s.file.GetUnpackSizeOfBlock (findBlock s.file s.virtPos) < 2 ^ 63 := hbs
  have hpk2 : s.startPos + s.file.StartPackPos +
      (s.file.Blocks.getD (findBlock s.file s.virtPos) defaultBlock).PackPos +
      (s.virtPos - (s.file.Blocks.getD (findBlock s.file s.virtPos) defaultBlock).UnpPos) <
      2 ^ 63 := hpk
  have hsrc2 : s.startPos + s.file.StartPackPos +
      (s.file.Blocks.getD (findBlock s.file s.virtPos) defaultBlock).PackPos +
      (s.virtPos - (s.file.Blocks.getD (findBlock s.file s.virtPos) defaultBlock).UnpPos) +
      (if (s.virtPos - (s.file.Blocks.getD (findBlock s.file s.virtPos) defaultBlock).UnpPos) +
            min destLen (s.size - s.virtPos) >
            s.file.GetUnpackSizeOfBlock (findBlock s.file s.virtPos) then
          s.file.GetUnpackSizeOfBlock (findBlock s.file s.virtPos) -
            (s.virtPos - (s.file.Blocks.getD (findBlock s.file s.virtPos) defaultBlock).UnpPos)
        else min destLen (s.size - s.virtPos)) ≤ s.src.length := hsrc
  have hvpU : s.virtPos < U64 := by show s.virtPos < 2 ^ 64; omega
  have hbsU : s.file.GetUnpackSizeOfBlock (findBlock s.file s.virtPos) < U64 := by
    show _ < 2 ^ 64
    omega
  have hinv : invalidateLatest s = s := by
    unfold invalidateLatest
    rw [if_neg (by omega)]
  have hna : (s.file.Blocks.getD (findBlock s.file s.virtPos) defaultBlock).NeedAllocateBuffer
      = false := by
    simp only [Block.NeedAllocateBuffer, hty2, MethodCopy, bne_self_eq_false,
      Bool.and_false]
  have hzm : (s.file.Blocks.getD (findBlock s.file s.virtPos) defaultBlock).IsZeroMethod
      = false := by
    unfold Block.IsZeroMethod
    rw [hty2]
    decide
  have hlook : lookupStep cod s =
      .ok { s with latestChunk := -1, latestBlock := Int.ofNat (findBlock s.file s.virtPos) } := by
    unfold lookupStep
    rw [if_pos (by omega)]
    dsimp only
    rw [hna]
    rw [if_neg (by simp)]
  have hoff : sub64 s.virtPos (s.file.Blocks.getD (findBlock s.file s.virtPos) defaultBlock).UnpPos
      = s.virtPos - (s.file.Blocks.getD (findBlock s.file s.virtPos) defaultBlock).UnpPos :=
    sub64_eq hup2 hvpU
  have hread : InStream.read cod s destLen =
      (.ok ((s.src.drop (copyReadPos s)).take (clippedLen s destLen)),
        { s with latestChunk := -1, latestBlock := Int.ofNat (findBlock s.file s.virtPos), virtPos := s.virtPos + clippedLen s destLen }) := by
    unfold InStream.read
    rw [if_neg (show ¬ (s.errorMode = true) by simp [herr])]
    rw [if_neg hn]
    rw [if_neg (by omega)]
    rw [hinv, hlook]
    show serveStep { s with latestChunk := -1, latestBlock := Int.ofNat (findBlock s.file s.virtPos) } (min destLen (s.size - s.virtPos)) destLen = _
    unfold serveStep
    unfold clippedLen copyReadPos curBlock curBlockIndex
    dsimp only [intToNat_ofNat]
    have hmod : (s.virtPos - (s.file.Blocks.getD (findBlock s.file s.virtPos) defaultBlock).UnpPos +
        min destLen (s.size - s.virtPos)) % U64 =
        s.virtPos - (s.file.Blocks.getD (findBlock s.file s.virtPos) defaultBlock).UnpPos +
        min destLen (s.size - s.virtPos) := by
      apply Nat.mod_eq_of_lt
      show _ < 2 ^ 64
      have := Nat.min_le_left destLen (s.size - s.virtPos)
      omega
    have hposmod : (s.startPos + s.file.StartPackPos +
        (s.file.Blocks.getD (findBlock s.file s.virtPos) defaultBlock).PackPos +
        (s.virtPos - (s.file.Blocks.getD (findBlock s.file s.virtPos) defaultBlock).UnpPos)) % U64 =
        s.startPos + s.file.StartPackPos +
        (s.file.Blocks.getD (findBlock s.file s.virtPos) defaultBlock).PackPos +
        (s.virtPos - (s.file.Blocks.getD (findBlock s.file s.virtPos) defaultBlock).UnpPos) := by
      apply Nat.mod_eq_of_lt
      show _ < 2 ^ 64
      omega
    rw [hzm]
    rw [if_neg (by simp)]
    rw [if_neg (show ¬ ((-1 : Int) ≥ 0) by norm_num)]
    rw [if_pos hty2]
    rw [hoff, hmod]
    by_cases hclip : s.virtPos -
        (s.file.Blocks.getD (findBlock s.file s.virtPos) defaultBlock).UnpPos +
        min destLen (s.size - s.virtPos) >
        s.file.GetUnpackSizeOfBlock (findBlock s.file s.virtPos)
    · simp only [if_pos hclip] at hsrc2 ⊢
      rw [sub64_eq (le_of_lt hin2) hbsU]
      rw [if_neg (by omega)]
      rw [hposmod]
      rw [if_neg (by omega)]
      unfold srcRead
      rw [if_neg (by omega)]
      rw [if_pos (by omega)]
      have hlen : ((s.src.drop (s.startPos + s.file.StartPackPos +
          (s.file.Blocks.getD (findBlock s.file s.virtPos) defaultBlock).PackPos +
          (s.virtPos - (s.file.Blocks.getD (findBlock s.file s.virtPos) defaultBlock).UnpPos))).take
          (s.file.GetUnpackSizeOfBlock (findBlock s.file s.virtPos) -
            (s.virtPos - (s.file.Blocks.getD (findBlock s.file s.virtPos) defaultBlock).UnpPos))).length =
          s.file.GetUnpackSizeOfBlock (findBlock s.file s.virtPos) -
            (s.virtPos - (s.file.Blocks.getD (findBlock s.file s.virtPos) defaultBlock).UnpPos) := by
        rw [List.length_take, List.length_drop]
        omega
      dsimp only
      rw [hlen]
    · simp only [if_neg hclip] at hsrc2 ⊢
      rw [if_neg (by omega)]
      rw [hposmod]
      rw [if_neg (by omega)]
      unfold srcRead
      rw [if_neg (by omega)]
      rw [if_pos (by omega)]
      have hlen : ((s.src.drop (s.startPos + s.file.StartPackPos +
          (s.file.Blocks.getD (findBlock s.file s.virtPos) defaultBlock).PackPos +
          (s.virtPos - (s.file.Blocks.getD (findBlock s.file s.virtPos) defaultBlock).UnpPos))).take
          (min destLen (s.size - s.virtPos))).length = min destLen (s.size - s.virtPos) := by
        rw [List.length_take, List.length_drop]
        omega
      dsimp only
      rw [hlen]
  constructor
  · rw [hread]
  · rw [hread]
    exact herr

theorem copy_block_direct_read_bytes_witness :
    (InStream.read noCodecs streamC7 16).1 =
      .ok ((streamC7.src.drop (copyReadPos streamC7)).take (clippedLen streamC7 16)) ∧
    (InStream.read noCodecs streamC7 16).2.errorMode = false :=
  copy_block_direct_read_bytes noCodecs streamC7 16 rfl rfl (by decide) (by decide)
    (by decide) (by decide) (by decide) (by decide) (by decide) (by decide) (by decide)
    (by decide)

end Dmg
